import Mathlib

/-!
# Verification of the ve_data_science maintenance tool

A shallow embedding of src/maintenance_tool (script_directories.py,
data_directories.py, maintenance_tool.py) together with theorems settling the
claims about it.

Modelling conventions:
* Python strings are Lean String; Python lists are Lean List.
* The filesystem, the PyYAML parser (yaml.safe_load), the Python ast docstring
  extractor and the URL validator of marshmallow fields.Url are external
  effects; they are supplied through an explicit Env record, so every
  definition stays executable on concrete environments.
* Decoded YAML values are the inductive Yaml below (the values yaml.safe_load
  can return that matter here: null, strings, lists and string-keyed maps).
* Logging is modelled as an explicit list of (level, message) pairs returned
  alongside the boolean result; message texts follow the source.
* marshmallow 3 semantics for the schemas declared in the source: required
  fields must be present and non-null, fields are type checked, unknown keys
  are rejected (the marshmallow 3 default Meta.unknown = RAISE), a field
  declared with a default_factory is optional and loads to the default when
  missing, and schema-level validators run only when field validation passed
  (the validates_schema default skip_on_field_errors=True). Validation
  failure is modelled as Option.none / Except.error; the distinct Python
  exception messages that the repository itself builds are kept as strings.
* Exceptions are split by whether the callers catch them: ValueError,
  YAMLError and marshmallow ValidationError are named in the except clauses
  (script_directories.py lines 89 and 302) and become logged failures, while
  TypeError (the `in` or indexing on non-mapping metadata) and
  UnboundLocalError are named nowhere and abort the run; the PyExcept and
  ScriptDirRun types below keep the two kinds apart.
-/

/-- Python logging levels used by the tool (LOGGER.info / LOGGER.error). -/
inductive LogLevel where
  | info
  | error
deriving DecidableEq, Repr

/-- One emitted log record: level and message. -/
structure LogLine where
  level : LogLevel
  msg : String
deriving DecidableEq, Repr

/-- Decoded YAML values, as returned by yaml.safe_load: None, strings,
sequences and string-keyed mappings. -/
inductive Yaml where
  | null
  | str (s : String)
  | list (items : List Yaml)
  | map (entries : List (String × Yaml))

/-- Python `value is None` test on a decoded YAML value. -/
def Yaml.isNull : Yaml → Bool
  | .null => true
  | _ => false

/-- Dictionary lookup on a decoded YAML mapping (first binding of the key;
yaml.safe_load produces each key once). -/
def lookupYaml : List (String × Yaml) → String → Option Yaml
  | [], _ => none
  | (k, v) :: rest, key => if k == key then some v else lookupYaml rest key

/-- Python str.startswith, via the character lists of the two strings. -/
def pyStartsWith (s pre : String) : Bool :=
  pre.data.isPrefixOf s.data

/-- Whether one character list occurs contiguously inside another. -/
def subListOf (needle : List Char) : List Char → Bool
  | [] => needle.isEmpty
  | a :: rest => needle.isPrefixOf (a :: rest) || subListOf needle rest

/-- Python `sub in s` on strings: the substring test. -/
def pySubstring (s sub : String) : Bool :=
  subListOf sub.data s.data

/-- Drop the first n characters of a string (used for comment-marker
stripping, Python slicing line[n:]). -/
def strDrop (s : String) (n : Nat) : String :=
  String.mk (s.data.drop n)

/-- pathlib path joining `a / b`: an absolute right operand replaces the left
one, otherwise the components are joined with a separator. -/
def pjoin (a b : String) : String :=
  if pyStartsWith b "/" then b
  else if a == "" then b
  else a ++ "/" ++ b

/-- The final component of a path (pathlib Path.name). -/
def baseName (p : String) : String :=
  match (p.data.reverse.splitOn '/').head? with
  | some revName => String.mk revName.reverse
  | none => p

/-- pathlib Path.suffix: the extension of the final component, including the
dot; empty when the final component has no dot, starts with its only dot, or
ends with the dot. -/
def pathSuffix (p : String) : String :=
  let name := (baseName p).data
  match name.reverse.findIdx? (fun c => c == '.') with
  | none => ""
  | some j =>
      let i := name.length - 1 - j
      if 0 < i && i + 1 < name.length then String.mk (name.drop i) else ""

/-- Python str.lower on the characters of a string (suffix.lower()). -/
def strToLower (s : String) : String :=
  String.mk (s.data.map Char.toLower)

/-- The outcome of one Python call in this module: a returned value, a
raised exception from the set the callers catch (ValueError, YAMLError,
marshmallow ValidationError — the except tuples at script_directories.py
lines 89 and 302), or a raised exception no clause of this module catches
(TypeError from the `in` or indexing on a non-mapping, UnboundLocalError
from an unmatched suffix), which propagates and aborts the whole run. -/
inductive PyExcept (α : Type) where
  | ok (a : α)
  | error (msg : String)
  | uncaught (msg : String)
deriving DecidableEq, Repr

/-- One entry of a directory listing: its bare name and whether it is a
regular file (Path.is_file). -/
structure DirEntry where
  name : String
  isFile : Bool
deriving DecidableEq, Repr

/-- What the filesystem holds at a directory path: nothing, a non-directory
entry, or a directory with its immediate children. -/
inductive DirStatus where
  | missing
  | notDir
  | present (entries : List DirEntry)

/-- The external world the tool runs against: the filesystem, the YAML
parser, the Python ast docstring extractor, the URL validator of the
marshmallow Url field, and the working directory. -/
structure Env where
  /-- Path.exists / Path.is_dir / Path.iterdir at a directory path. -/
  dirAt : String → DirStatus
  /-- open(path).readlines(): the lines of a text file, newlines kept. -/
  fileLines : String → List String
  /-- ast.get_docstring(ast.parse(source), clean=False) for a Python file. -/
  pyDocstring : String → Option String
  /-- yaml.safe_load on a text block; error carries the YAMLError text. -/
  yamlLoad : String → Except String Yaml
  /-- Path.exists for an input/output file path. -/
  fileExists : String → Bool
  /-- The URL validity test applied by marshmallow fields.Url. -/
  urlValid : String → Bool
  /-- Path.rglob("*") restricted to directories, for the recursive walker. -/
  subdirs : String → List String
  /-- Path.cwd(). -/
  cwd : String

/-- Data class ScriptFileDetails: one declared input or output file. -/
structure ScriptFileDetails where
  name : String
  path : String
  description : String
deriving DecidableEq, Repr

/-- Data class ScriptMetadata: the validated metadata of one script file. -/
structure ScriptMetadata where
  title : String
  description : String
  author : List String
  virtual_ecosystem_module : List String
  status : String
  package_dependencies : List String
  usage_notes : String
  input_files : List ScriptFileDetails
  output_files : List ScriptFileDetails
deriving DecidableEq, Repr

/-! ## Schema validation (marshmallow loads of the declared schemas) -/

/-- marshmallow fields.String load: accepts a string, rejects anything else
(including null, since allow_none is not set). -/
def parseStr : Yaml → Option String
  | .str s => some s
  | _ => none

/-- marshmallow fields.List(fields.String) load: a sequence of strings. -/
def parseStrList : Yaml → Option (List String)
  | .list items => items.mapM parseStr
  | _ => none

/-- The declared field names of the ScriptFileDetails schema. -/
def fdKeys : List String := ["name", "path", "description"]

/-- Load of the generated ScriptFileDetails schema: all three fields are
required strings; unknown keys are rejected (marshmallow default RAISE). -/
def parseFileDetails : Yaml → Option ScriptFileDetails
  | .map kvs =>
    if kvs.all (fun kv => fdKeys.contains kv.1) then
      match lookupYaml kvs "name", lookupYaml kvs "path",
            lookupYaml kvs "description" with
      | some n, some p, some d =>
        match parseStr n, parseStr p, parseStr d with
        | some n, some p, some d => some ⟨n, p, d⟩
        | _, _, _ => none
      | _, _, _ => none
    else none
  | _ => none

/-- marshmallow fields.List(Nested(ScriptFileDetails)) load. -/
def parseFileDetailsList : Yaml → Option (List ScriptFileDetails)
  | .list items => items.mapM parseFileDetails
  | _ => none

/-- The declared field names of the ScriptMetadata schema. -/
def smKeys : List String :=
  ["title", "description", "author", "virtual_ecosystem_module", "status",
   "package_dependencies", "usage_notes", "input_files", "output_files"]

/-- A required field of the ScriptMetadata schema holding a string. -/
def reqStr (kvs : List (String × Yaml)) (key : String) : Option String :=
  lookupYaml kvs key >>= parseStr

/-- A required field of the ScriptMetadata schema holding a string list. -/
def reqStrList (kvs : List (String × Yaml)) (key : String) :
    Option (List String) :=
  lookupYaml kvs key >>= parseStrList

/-- A file-details list field with default_factory=list: optional, loading
to the empty list when the key is missing; null is still rejected. -/
def optFileList (kvs : List (String × Yaml)) (key : String) :
    Option (List ScriptFileDetails) :=
  match lookupYaml kvs key with
  | none => some []
  | some v => parseFileDetailsList v

/-- ScriptMetadata.Schema().load: the marshmallow load of the decoded YAML
mapping against the generated ScriptMetadata schema. Non-mappings and
mappings with unknown keys are rejected; every declared field is validated;
none means a marshmallow ValidationError was raised. -/
def loadScriptMetadata : Yaml → Option ScriptMetadata
  | .map kvs =>
    if kvs.all (fun kv => smKeys.contains kv.1) then
      match reqStr kvs "title", reqStr kvs "description",
            reqStrList kvs "author",
            reqStrList kvs "virtual_ecosystem_module",
            reqStr kvs "status", reqStrList kvs "package_dependencies",
            reqStr kvs "usage_notes", optFileList kvs "input_files",
            optFileList kvs "output_files" with
      | some title, some description, some author, some vem, some status,
        some pkg, some usage, some inputs, some outputs =>
        some ⟨title, description, author, vem, status, pkg, usage,
              inputs, outputs⟩
      | _, _, _, _, _, _, _, _, _ => none
    else none
  | _ => none

/-- The null-to-empty normalization of one field value: for the two
allowed-empty keys, a null value becomes an empty sequence
(validate_script_metadata, the loop over ("input_files", "output_files")). -/
def normalizeVal (key : String) (v : Yaml) : Yaml :=
  if (key == "input_files" || key == "output_files") && v.isNull then
    Yaml.list []
  else v

/-- The normalization applied to one mapping binding. -/
def normalizePair (kv : String × Yaml) : String × Yaml :=
  (kv.1, normalizeVal kv.1 kv.2)

/-- The null-to-empty normalization applied to a decoded YAML value before
the schema load; non-mappings are left unchanged. -/
def normalizeEmptyLists : Yaml → Yaml
  | .map kvs => .map (kvs.map normalizePair)
  | y => y

/-- The schema-validation stage of validate_script_metadata on a decoded
mapping: normalize the allowed-empty list fields, then load against the
ScriptMetadata schema. -/
def loadNormalizedMetadata (yaml_content : Yaml) : Option ScriptMetadata :=
  loadScriptMetadata (normalizeEmptyLists yaml_content)

/-- The allowed-empty loop of validate_script_metadata as Python runs it
(`if key in yaml_content and yaml_content[key] is None: yaml_content[key]
= []`, script_directories.py lines 95-97). On a mapping it rewrites the two
allowed-empty keys. On null the membership test `"input_files" in
yaml_content` raises a TypeError, which no except clause of the module
names. On a string or sequence where the Python `in` finds a key (substring
of the string, element equal to the key text), the indexing
`yaml_content[key]` raises the same uncaught TypeError; on other strings
and sequences the loop finds nothing and the value passes through to the
schema load (which then rejects the non-mapping as a caught
ValidationError). -/
def normalizeEmptyListsPy : Yaml → PyExcept Yaml
  | .map kvs => .ok (.map (kvs.map normalizePair))
  | .null => .uncaught "argument of type NoneType is not iterable"
  | .str s =>
    if pySubstring s "input_files" || pySubstring s "output_files" then
      .uncaught "string indices must be integers"
    else .ok (.str s)
  | .list items =>
    if items.any (fun y => match y with
        | .str s => s == "input_files" || s == "output_files"
        | _ => false) then
      .uncaught "list indices must be integers"
    else .ok (.list items)

/-! ## The data-directory manifest schemas -/

/-- The loaded form of one ManifestFile entry: name plus the optional
provenance and checksum fields, present exactly when supplied. -/
structure ManifestFile where
  name : String
  url : Option String
  script : Option String
  md5 : Option String
deriving DecidableEq, Repr

/-- The loaded form of a data-directory manifest (ManifestSchema). -/
structure Manifest where
  directory : String
  files : List ManifestFile
deriving DecidableEq, Repr

/-- The declared field names of the ManifestFile schema. -/
def mfKeys : List String := ["name", "url", "script", "md5"]

/-- An optional fields.String member of the ManifestFile schema: absent is
fine, present must be a string. -/
def optStrField (kvs : List (String × Yaml)) (key : String) :
    Option (Option String) :=
  match lookupYaml kvs key with
  | none => some none
  | some v => (parseStr v).map some

/-- The optional fields.Url member: absent is fine, present must be a string
passing the URL validator. -/
def optUrlField (urlValid : String → Bool) (kvs : List (String × Yaml)) :
    Option (Option String) :=
  match lookupYaml kvs "url" with
  | none => some none
  | some v =>
    match parseStr v with
    | some s => if urlValid s then some (some s) else none
    | none => none

/-- ManifestFile.load: field validation (required name, optional url with
URL validation, optional script and md5, unknown keys rejected) followed by
the validates_schema rule validate_url_or_schema: exactly one of url and
script must have been supplied, otherwise a ValidationError is raised. -/
def loadManifestFile (urlValid : String → Bool) : Yaml → Option ManifestFile
  | .map kvs =>
    if kvs.all (fun kv => mfKeys.contains kv.1) then
      match lookupYaml kvs "name" >>= parseStr, optUrlField urlValid kvs,
            optStrField kvs "script", optStrField kvs "md5" with
      | some name, some url, some script, some md5 =>
        if url.isSome ^^ script.isSome then some ⟨name, url, script, md5⟩
        else none
      | _, _, _, _ => none
    else none
  | _ => none

/-- The declared field names of the ManifestSchema schema. -/
def msKeys : List String := ["directory", "files"]

/-- ManifestSchema().load: required string directory and required nested
many=True list of ManifestFile entries. -/
def loadManifestSchema (urlValid : String → Bool) : Yaml → Option Manifest
  | .map kvs =>
    if kvs.all (fun kv => msKeys.contains kv.1) then
      match lookupYaml kvs "directory" >>= parseStr,
            lookupYaml kvs "files" with
      | some directory, some (.list items) =>
        match items.mapM (loadManifestFile urlValid) with
        | some files => some ⟨directory, files⟩
        | none => none
      | _, _ => none
    else none
  | _ => none

/-! ## Format-specific metadata readers -/

/-- The YAML document marker line of the R comment-block format. -/
def rYamlDocumentMarker : String := "#| ---\n"

/-- The indices of the lines equal to the R document marker
(read_r_script_metadata, document_markers). -/
def rDocumentMarkers (content : List String) : List Nat :=
  (content.enum.filter (fun p => p.2 == rYamlDocumentMarker)).map Prod.fst

/-- Strip the R comment marker from one block line: the regular expression
sub of the anchored marker with an optional trailing space. -/
def stripRCommentMarker (line : String) : String :=
  if pyStartsWith line "#| " then strDrop line 3
  else if pyStartsWith line "#|" then strDrop line 2
  else line

/-- read_r_script_metadata, with the file lines and the YAML parser passed
in: locate the comment-marker lines, demand at least two with the first at
the file start, check consistent line commenting inside the block, strip the
markers and parse the joined block. The block runs from the first marker up
to but excluding the second. -/
def read_r_script_metadata (content : List String)
    (yamlLoad : String → Except String Yaml) : PyExcept Yaml :=
  match rDocumentMarkers content with
  | [] => .error "YAML block not contained within document markers."
  | [_] => .error "YAML block not contained within document markers."
  | m0 :: m1 :: _ =>
    if m0 ≠ 0 then .error "First YAML metadata markers is not at the file start."
    else
      let yaml_lines := (content.take m1).drop m0
      let marked_correctly := yaml_lines.all
        (fun line => pyStartsWith line "#| " || line == "#|\n")
      if !marked_correctly then
        .error "Inconsistent use of YAML line comment within YAML block."
      else
        match yamlLoad (String.join (yaml_lines.map stripRCommentMarker)) with
        | .ok y => .ok y
        | .error e => .error e

/-- The trailing-marker strip of read_py_script_metadata: the regular
expression sub replacing a trailing run of newline and dash characters with
a single newline (no change when the text does not end in such a run). -/
def stripTrailingYamlMarker (s : String) : String :=
  let kept := s.data.reverse.dropWhile (fun c => c == '\n' || c == '-')
  if kept.length == s.data.length then s
  else String.mk kept.reverse ++ "\n"

/-- read_py_script_metadata, with the docstring extraction passed in: a
missing module docstring is an error; otherwise the docstring, with any
trailing document marker stripped, is parsed as YAML. -/
def read_py_script_metadata (docstring : Option String)
    (yamlLoad : String → Except String Yaml) : PyExcept Yaml :=
  match docstring with
  | none => .error "Missing docstring in python script"
  | some contents =>
    match yamlLoad (stripTrailingYamlMarker contents) with
    | .ok y => .ok y
    | .error e => .error e

/-- The indices of the frontmatter delimiter lines of a markdown file
(read_markdown_notebook_metadata, document_markers). -/
def mdDocumentMarkers (content : List String) : List Nat :=
  (content.enum.filter (fun p => pyStartsWith p.2 "---")).map Prod.fst

/-- read_markdown_notebook_metadata: demand exactly two delimiter lines with
the first at the file start, parse the block and return the nested
ve_data_science section, whose absence raises a caught ValueError. The
source checks the marker count before the first-marker position. A decoded
document that is not a mapping follows the Python `in`/indexing semantics
of lines 238 and 241: on null the membership test raises an uncaught
TypeError; a string or sequence where `in` finds the section name raises it
at the indexing; other strings and sequences report the caught
not-found ValueError. -/
def read_markdown_notebook_metadata (content : List String)
    (yamlLoad : String → Except String Yaml) : PyExcept Yaml :=
  match mdDocumentMarkers content with
  | [m0, m1] =>
    if m0 ≠ 0 then .error "First YAML metadata markers is not at the file start."
    else
      match yamlLoad (String.join ((content.take m1).drop m0)) with
      | .error e => .error e
      | .ok (.map kvs) =>
        match lookupYaml kvs "ve_data_science" with
        | none => .error "ve_data_science metadata not found in file"
        | some v => .ok v
      | .ok .null => .uncaught "argument of type NoneType is not iterable"
      | .ok (.str s) =>
        if pySubstring s "ve_data_science" then
          .uncaught "string indices must be integers"
        else .error "ve_data_science metadata not found in file"
      | .ok (.list items) =>
        if items.any (fun y => match y with
            | .str s => s == "ve_data_science"
            | _ => false) then
          .uncaught "list indices must be integers"
        else .error "ve_data_science metadata not found in file"
  | ms =>
    .error ("Found " ++ toString ms.length ++ " not 2 YAML metadata markers.")

/-- validate_script_metadata: check the file exists, dispatch on the
lower-cased suffix to the format-specific reader, normalize the
allowed-empty list fields and load the ScriptMetadata schema. ok and error
outcomes are the returned metadata and the raised ValueError / YAMLError /
ValidationError that the directory walker catches; uncaught outcomes are
the TypeError of the allowed-empty loop on non-mapping metadata
(script_directories.py line 96) and the UnboundLocalError of a suffix
outside the dispatch table, neither of which any except clause names, so
they escape the walker. -/
def validate_script_metadata (env : Env) (file_path : String) :
    PyExcept ScriptMetadata :=
  if !env.fileExists file_path then .error "File path not found."
  else
    let loaded : PyExcept Yaml :=
      match strToLower (pathSuffix file_path) with
      | ".rmd" => read_markdown_notebook_metadata (env.fileLines file_path) env.yamlLoad
      | ".r" => read_r_script_metadata (env.fileLines file_path) env.yamlLoad
      | ".py" => read_py_script_metadata (env.pyDocstring file_path) env.yamlLoad
      | ".md" => read_markdown_notebook_metadata (env.fileLines file_path) env.yamlLoad
      | _ => .uncaught "cannot access local variable loader"
    match loaded with
    | .uncaught m => .uncaught m
    | .error e => .error e
    | .ok yaml_content =>
      match normalizeEmptyListsPy yaml_content with
      | .uncaught m => .uncaught m
      | .error m => .error m
      | .ok normalized =>
        match loadScriptMetadata normalized with
        | none => .error ("Could not validate metadata in " ++ file_path)
        | some metadata => .ok metadata

/-! ## The script-directory checker -/

/-- The recognized script suffixes of check_script_directory. -/
def scriptSuffixes : List String := [".r", ".py", ".md", ".rmd"]

/-- The immediate non-hidden regular files of a directory listing
(the actual_files set builder of both directory checkers). -/
def actualFilesOf (entries : List DirEntry) : List DirEntry :=
  entries.filter (fun f => !pyStartsWith f.name "." && f.isFile)

/-- The script files of a directory listing: non-hidden regular files with a
recognized suffix that are not on the ignore list. -/
def scriptFilesOf (entries : List DirEntry) (ignore_files : List String) :
    List DirEntry :=
  (actualFilesOf entries).filter
    (fun f => scriptSuffixes.contains (strToLower (pathSuffix f.name))
      && !ignore_files.contains f.name)

/-- One step of the loop of check_script_directory over the declared input
or output paths: a missing path logs an error and forces the running result
to failure, a found path logs a line, and the loop always continues. -/
def checkOneLocation (env : Env) (label : String) (acc : Bool × List LogLine)
    (p : String) : Bool × List LogLine :=
  if !env.fileExists p then
    (false, acc.2 ++ [⟨.error, "     X " ++ (label ++ (" file not found: " ++ p))⟩])
  else
    (acc.1, acc.2 ++ [⟨.error, "     - " ++ (label ++ (" file found: " ++ p))⟩])

/-- The loop of check_script_directory over the declared input or output
paths. -/
def checkPathsStep (env : Env) (label : String) (paths : List String)
    (acc : Bool × List LogLine) : Bool × List LogLine :=
  paths.foldl (checkOneLocation env label) acc

/-- The outcome of one run of check_script_directory: either the function
returns its boolean together with the log it emitted, or an uncaught
exception (TypeError from a non-mapping metadata block) escapes the loop
mid-run — no boolean is returned and only the log emitted before the crash
is on the stream. -/
inductive ScriptDirRun where
  | completed (result : Bool) (log : List LogLine)
  | crashed (msg : String) (log : List LogLine)
deriving DecidableEq, Repr

/-- The boolean a run returned: some for a completed run, none when it
crashed and returned nothing. -/
def ScriptDirRun.result : ScriptDirRun → Option Bool
  | .completed rv _ => some rv
  | .crashed _ _ => none

/-- The log a run emitted, up to the crash when it crashed. -/
def ScriptDirRun.log : ScriptDirRun → List LogLine
  | .completed _ log => log
  | .crashed _ log => log

/-- The per-file body of the check_script_directory loop: validate the file
metadata, log the per-file outcome, and, when requested, check each declared
input and output location at the path built from the descriptor alone. A
caught validation error is logged and forces the result to failure; an
uncaught TypeError aborts the loop (no outcome line is logged for the file,
nothing later runs). -/
def scriptFileStep (env : Env) (check_file_locations : Bool)
    (dirPath : String) (acc : ScriptDirRun) (f : DirEntry) : ScriptDirRun :=
  match acc with
  | .crashed m log => .crashed m log
  | .completed rv log =>
    match validate_script_metadata env (pjoin dirPath f.name) with
    | .uncaught m => .crashed m log
    | .error excep =>
      .completed false (log ++
        [⟨.error, "   X " ++ (f.name ++ (" did not pass metadata validation.\n" ++ excep))⟩])
    | .ok yaml_contents =>
      let log2 := log ++ [⟨.info, "   - " ++ (f.name ++ " contains valid metadata")⟩]
      if check_file_locations then
        let inputs := yaml_contents.input_files.map (fun d => pjoin d.path d.name)
        let acc1 := checkPathsStep env "Input" inputs (rv, log2)
        let outputs := yaml_contents.output_files.map (fun d => pjoin d.path d.name)
        let acc2 := checkPathsStep env "Output" outputs acc1
        .completed acc2.1 acc2.2
      else .completed rv log2

/-- The body of check_script_directory on an existing directory listing:
partition the contents, log the counts, then check every script file,
folding the per-file outcomes into one boolean — unless a file crashes the
loop, which aborts the remaining files and the return. -/
def check_script_directory_entries (env : Env) (dirPath : String)
    (check_file_locations : Bool) (entries : List DirEntry)
    (ignore_files : List String) : ScriptDirRun :=
  let actual_files := actualFilesOf entries
  let script_files := scriptFilesOf entries ignore_files
  let log0 : List LogLine :=
    [⟨.info, " - Found " ++ (toString actual_files.length ++ (" files including "
      ++ (toString script_files.length ++ " script files")))⟩]
  script_files.foldl (scriptFileStep env check_file_locations dirPath)
    (.completed true log0)

/-- Resolution of a possibly relative directory argument against the
repository root (the is_absolute branch of both directory checkers). -/
def resolvePath (directory repository_root : String) : String :=
  if pyStartsWith directory "/" then directory
  else pjoin repository_root directory

/-- check_script_directory: log the header, resolve the directory, fail on a
missing or non-directory path, and otherwise validate every script file in
it, returning the combined boolean and the log — or propagating the
uncaught exception of a crashed loop. -/
def check_script_directory (env : Env) (directory : String)
    (check_file_locations : Bool) (repository_root : String)
    (ignore_files : List String) : ScriptDirRun :=
  let log0 : List LogLine := [⟨.info, "Script checking " ++ directory⟩]
  let dirPath := resolvePath directory repository_root
  match env.dirAt dirPath with
  | .missing => .completed false (log0 ++ [⟨.error, " X Directory not found"⟩])
  | .notDir =>
    .completed false
      (log0 ++ [⟨.error, " X Directory path is a file not a directory"⟩])
  | .present entries =>
    match check_script_directory_entries env dirPath check_file_locations
      entries ignore_files with
    | .completed rv log => .completed rv (log0 ++ log)
    | .crashed m log => .crashed m (log0 ++ log)

/-- The default ignore list of check_script_directory. -/
def defaultIgnoreFiles : List String := ["__init__.py", "README.md"]

/-! ## The data-directory checker -/

/-- The set of non-hidden file names of a data directory (the actual_files
set; Python set semantics: names deduplicated). -/
def dataActualFiles (entries : List DirEntry) : List String :=
  ((actualFilesOf entries).map DirEntry.name).dedup

/-- The on-disk name set compared against the manifest: the actual files
with the manifest file name itself removed (actual_files.remove). -/
def comparedDiskFiles (entries : List DirEntry) : List String :=
  (dataActualFiles entries).filter (fun n => n ≠ "MANIFEST.yaml")

/-- The set of file names declared by a loaded manifest. -/
def manifestNames (m : Manifest) : List String :=
  (m.files.map ManifestFile.name).dedup

/-- Python set equality of two name collections. -/
def sameNameSet (a b : List String) : Bool :=
  a.all (fun n => b.contains n) && b.all (fun n => a.contains n)

/-- The names declared by the manifest but absent on disk
(manifest_files.difference(actual_files)). -/
def onlyInManifest (m : Manifest) (entries : List DirEntry) : List String :=
  (manifestNames m).filter (fun n => !(comparedDiskFiles entries).contains n)

/-- The names on disk but not declared by the manifest
(actual_files.difference(manifest_files)). -/
def onlyInDirectory (m : Manifest) (entries : List DirEntry) : List String :=
  (comparedDiskFiles entries).filter (fun n => !(manifestNames m).contains n)

/-- The body of check_data_directory on an existing directory listing: the
manifest must be present and parse and load cleanly (each failure returns
immediately); then the directory-name check and the two-way file-set
comparison both run before returning, accumulating one boolean. -/
def check_data_directory_entries (env : Env) (dirPath : String)
    (repository_root : String) (entries : List DirEntry) :
    Bool × List LogLine :=
  let actual_files := dataActualFiles entries
  let log0 : List LogLine :=
    [⟨.info, " - Found " ++ (toString actual_files.length ++ " files.")⟩]
  if !actual_files.contains "MANIFEST.yaml" then
    (false, log0 ++ [⟨.error, " - MANIFEST.yaml not found"⟩])
  else
    match env.yamlLoad (String.join (env.fileLines (pjoin dirPath "MANIFEST.yaml"))) with
    | .error excep =>
      (false, log0 ++ [⟨.error, " - Cannot parse MANIFEST.yaml"⟩, ⟨.error, excep⟩])
    | .ok manifestYaml =>
      match loadManifestSchema env.urlValid manifestYaml with
      | none => (false, log0 ++ [⟨.error, " - MANIFEST.yaml structure incorrect:"⟩])
      | some manifest =>
        let dirOk := pjoin repository_root manifest.directory == dirPath
        let log1 := log0 ++
          (if dirOk then []
           else [⟨.error, " - MANIFEST.yaml directory name does not match: "
             ++ manifest.directory⟩])
        let filesOk := sameNameSet (manifestNames manifest) (comparedDiskFiles entries)
        let log2 := log1 ++
          (if filesOk then []
           else
             [⟨.error, " - MANIFEST.yaml files do not match directory contents:"⟩]
             ++ (if !(onlyInManifest manifest entries).isEmpty then
                   [⟨.error, "   Only in manifest: "
                     ++ String.intercalate ", " (onlyInManifest manifest entries)⟩]
                 else [])
             ++ (if !(onlyInDirectory manifest entries).isEmpty then
                   [⟨.error, "   Only in directory: "
                     ++ String.intercalate ", " (onlyInDirectory manifest entries)⟩]
                 else []))
        let return_value := dirOk && filesOk
        let log3 := log2 ++
          (if return_value then [⟨.info, " - Directory validated"⟩]
           else [⟨.error, " - Directory manifest contains errors"⟩])
        (return_value, log3)

/-- check_data_directory: log the header, resolve the directory, fail on a
missing or non-directory path, and otherwise validate the manifest against
the directory contents. -/
def check_data_directory (env : Env) (directory : String)
    (repository_root : String) : Bool × List LogLine :=
  let log0 : List LogLine := [⟨.info, "Checking " ++ directory⟩]
  let dirPath := resolvePath directory repository_root
  match env.dirAt dirPath with
  | .missing => (false, log0 ++ [⟨.error, " - Directory not found"⟩])
  | .notDir =>
    (false, log0 ++ [⟨.error, " - Directory path is a file not a directory"⟩])
  | .present entries =>
    let r := check_data_directory_entries env dirPath repository_root entries
    (r.1, log0 ++ r.2)

/-- Whether the metadata validation of one script file raises an exception
the walker does not catch (the TypeError of a non-mapping metadata block),
aborting the whole directory run. -/
def validationCrashes (env : Env) (dirPath : String) (f : DirEntry) : Bool :=
  match validate_script_metadata env (pjoin dirPath f.name) with
  | .uncaught _ => true
  | _ => false

/-- The contribution of one script file to the directory boolean: failed
validation always counts against it; with location checking on, every
declared input and output path must also exist. -/
def filePasses (env : Env) (check_file_locations : Bool) (dirPath : String)
    (f : DirEntry) : Bool :=
  match validate_script_metadata env (pjoin dirPath f.name) with
  | .ok md =>
    !check_file_locations ||
      ((md.input_files.map (fun d => pjoin d.path d.name)).all env.fileExists
        && (md.output_files.map (fun d => pjoin d.path d.name)).all env.fileExists)
  | _ => false

/-- The log line produced for one checked input or output location. -/
def locLine (env : Env) (label : String) (p : String) : LogLine :=
  if env.fileExists p then ⟨.error, "     - " ++ (label ++ (" file found: " ++ p))⟩
  else ⟨.error, "     X " ++ (label ++ (" file not found: " ++ p))⟩

/-- The log lines produced for one script file by the loop body (a crashing
file logs nothing before the exception escapes). -/
def fileLog (env : Env) (check_file_locations : Bool) (dirPath : String)
    (f : DirEntry) : List LogLine :=
  match validate_script_metadata env (pjoin dirPath f.name) with
  | .error excep =>
    [⟨.error, "   X " ++ (f.name ++ (" did not pass metadata validation.\n" ++ excep))⟩]
  | .ok md =>
    ⟨.info, "   - " ++ (f.name ++ " contains valid metadata")⟩ ::
      (if check_file_locations then
        md.input_files.map (fun d => locLine env "Input" (pjoin d.path d.name))
          ++ md.output_files.map (fun d => locLine env "Output" (pjoin d.path d.name))
      else [])
  | .uncaught _ => []

theorem checkOneLocation_spec (env : Env) (label : String)
    (acc : Bool × List LogLine) (p : String) :
    checkOneLocation env label acc p
      = (acc.1 && env.fileExists p, acc.2 ++ [locLine env label p]) := by
  cases hE : env.fileExists p <;> simp [checkOneLocation, locLine, hE]

theorem checkPathsStep_spec (env : Env) (label : String) (paths : List String)
    (acc : Bool × List LogLine) :
    checkPathsStep env label paths acc
      = (acc.1 && paths.all env.fileExists, acc.2 ++ paths.map (locLine env label)) := by
  induction paths generalizing acc with
  | nil => simp [checkPathsStep]
  | cons p rest ih =>
    rw [checkPathsStep, List.foldl_cons, checkOneLocation_spec,
      ← checkPathsStep, ih]
    simp [Bool.and_assoc]

theorem scriptFileStep_spec (env : Env) (check_file_locations : Bool)
    (dirPath : String) (rv : Bool) (log : List LogLine) (f : DirEntry)
    (hok : validationCrashes env dirPath f = false) :
    scriptFileStep env check_file_locations dirPath (.completed rv log) f
      = .completed (rv && filePasses env check_file_locations dirPath f)
        (log ++ fileLog env check_file_locations dirPath f) := by
  cases hv : validate_script_metadata env (pjoin dirPath f.name) with
  | uncaught m => simp [validationCrashes, hv] at hok
  | error e => simp [scriptFileStep, filePasses, fileLog, hv]
  | ok md =>
    cases check_file_locations with
    | false => simp [scriptFileStep, filePasses, fileLog, hv]
    | true =>
      simp [scriptFileStep, filePasses, fileLog, hv, checkPathsStep_spec,
        Bool.and_assoc, Function.comp_def]

theorem scriptFold_spec (env : Env) (check_file_locations : Bool)
    (dirPath : String) (sf : List DirEntry) (rv : Bool) (log : List LogLine)
    (hnc : sf.all (fun f => !validationCrashes env dirPath f) = true) :
    sf.foldl (scriptFileStep env check_file_locations dirPath)
        (.completed rv log)
      = .completed (rv && sf.all (filePasses env check_file_locations dirPath))
        (log ++ sf.flatMap (fileLog env check_file_locations dirPath)) := by
  revert hnc
  induction sf generalizing rv log with
  | nil => intro _; simp
  | cons f rest ih =>
    intro hnc
    simp only [List.all_cons, Bool.and_eq_true, Bool.not_eq_eq_eq_not,
      Bool.not_true] at hnc
    obtain ⟨h1, h2⟩ := hnc
    rw [List.foldl_cons,
      scriptFileStep_spec env check_file_locations dirPath rv log f h1,
      ih _ _ (by simpa using h2)]
    simp [Bool.and_assoc]

/-- The closed form of the body of check_script_directory on a directory
listing: the boolean is the conjunction of the per-file contributions and
the log is the found-files line followed by the per-file log segments. -/
theorem check_script_directory_entries_spec (env : Env) (dirPath : String)
    (check_file_locations : Bool) (entries : List DirEntry)
    (ignore_files : List String)
    (hnc : (scriptFilesOf entries ignore_files).all
      (fun f => !validationCrashes env dirPath f) = true) :
    check_script_directory_entries env dirPath check_file_locations entries
        ignore_files
      = .completed
          ((scriptFilesOf entries ignore_files).all
            (filePasses env check_file_locations dirPath))
          (⟨.info, " - Found " ++ (toString (actualFilesOf entries).length
            ++ (" files including "
            ++ (toString (scriptFilesOf entries ignore_files).length
            ++ " script files")))⟩ ::
            (scriptFilesOf entries ignore_files).flatMap
              (fileLog env check_file_locations dirPath)) := by
  simp only [check_script_directory_entries]
  rw [scriptFold_spec env check_file_locations dirPath
    (scriptFilesOf entries ignore_files) true _ hnc]
  simp

/-- The fully resolved run of check_script_directory on an existing
directory none of whose script files crashes validation: the run completes
with the conjunction of the per-file contributions as the boolean and the
header line, found-files line and per-file segments as the log. -/
theorem check_script_directory_run (env : Env)
    (directory repository_root : String) (check_file_locations : Bool)
    (ignore_files : List String) (entries : List DirEntry)
    (hdir : env.dirAt (resolvePath directory repository_root) = .present entries)
    (hnc : (scriptFilesOf entries ignore_files).all
      (fun f => !validationCrashes env
        (resolvePath directory repository_root) f) = true) :
    check_script_directory env directory check_file_locations repository_root
        ignore_files
      = .completed
          ((scriptFilesOf entries ignore_files).all
            (filePasses env check_file_locations
              (resolvePath directory repository_root)))
          (⟨.info, "Script checking " ++ directory⟩ ::
            ⟨.info, " - Found " ++ (toString (actualFilesOf entries).length
              ++ (" files including "
              ++ (toString (scriptFilesOf entries ignore_files).length
              ++ " script files")))⟩ ::
            (scriptFilesOf entries ignore_files).flatMap
              (fileLog env check_file_locations
                (resolvePath directory repository_root))) := by
  have h := check_script_directory_entries_spec env
    (resolvePath directory repository_root) check_file_locations entries
    ignore_files hnc
  simp [check_script_directory, hdir, h]

theorem all_eq_false_of_mem {α : Type} (l : List α) (p : α → Bool) (x : α)
    (hx : x ∈ l) (hpx : p x = false) : l.all p = false := by
  cases hall : l.all p with
  | false => rfl
  | true =>
    rw [List.all_eq_true] at hall
    rw [hall x hx] at hpx
    cases hpx

theorem fileLog_ok (env : Env) (check_file_locations : Bool) (dirPath : String)
    (f : DirEntry) (md : ScriptMetadata)
    (hv : validate_script_metadata env (pjoin dirPath f.name) = .ok md) :
    fileLog env check_file_locations dirPath f
      = ⟨.info, "   - " ++ (f.name ++ " contains valid metadata")⟩ ::
        (if check_file_locations then
          md.input_files.map (fun d => locLine env "Input" (pjoin d.path d.name))
            ++ md.output_files.map (fun d => locLine env "Output" (pjoin d.path d.name))
        else []) := by
  simp [fileLog, hv]

/-- C4 (amended): for every validated script file in a directory whose run
completes (no file raises the uncaught TypeError of a null metadata block),
each declared input and output descriptor is checked at the path
`descriptor.path / descriptor.name` taken as-is (resolved by the operating
system against the process working directory, not against repository_root);
each descriptor yields its own found / not-found log line, and any missing
one flips the directory result to failure without stopping the remaining
checks. -/
theorem check_script_directory_location_checks (env : Env)
    (directory repository_root : String) (ignore_files : List String)
    (entries : List DirEntry) (f : DirEntry) (md : ScriptMetadata)
    (hdir : env.dirAt (resolvePath directory repository_root) = .present entries)
    (hnc : (scriptFilesOf entries ignore_files).all
      (fun g => !validationCrashes env
        (resolvePath directory repository_root) g) = true)
    (hf : f ∈ scriptFilesOf entries ignore_files)
    (hv : validate_script_metadata env
      (pjoin (resolvePath directory repository_root) f.name) = .ok md) :
    (∀ d ∈ md.input_files,
      locLine env "Input" (pjoin d.path d.name)
        ∈ (check_script_directory env directory true repository_root
          ignore_files).log)
    ∧ (∀ d ∈ md.output_files,
      locLine env "Output" (pjoin d.path d.name)
        ∈ (check_script_directory env directory true repository_root
          ignore_files).log)
    ∧ ((∃ d, (d ∈ md.input_files ∨ d ∈ md.output_files)
          ∧ env.fileExists (pjoin d.path d.name) = false) →
      (check_script_directory env directory true repository_root
        ignore_files).result = some false) := by
  rw [check_script_directory_run env directory repository_root true
    ignore_files entries hdir hnc]
  refine ⟨?_, ?_, ?_⟩
  · intro d hd
    simp only [ScriptDirRun.log]
    apply List.mem_cons_of_mem
    apply List.mem_cons_of_mem
    rw [List.mem_flatMap]
    refine ⟨f, hf, ?_⟩
    rw [fileLog_ok env true _ f md hv, if_pos rfl]
    exact List.mem_cons_of_mem _
      (List.mem_append_left _ (List.mem_map_of_mem _ hd))
  · intro d hd
    simp only [ScriptDirRun.log]
    apply List.mem_cons_of_mem
    apply List.mem_cons_of_mem
    rw [List.mem_flatMap]
    refine ⟨f, hf, ?_⟩
    rw [fileLog_ok env true _ f md hv, if_pos rfl]
    exact List.mem_cons_of_mem _
      (List.mem_append_right _ (List.mem_map_of_mem _ hd))
  · rintro ⟨d, hd, hmiss⟩
    simp only [ScriptDirRun.result]
    have hfp : filePasses env true (resolvePath directory repository_root) f
        = false := by
      have hin : filePasses env true (resolvePath directory repository_root) f
          = ((md.input_files.map (fun d => pjoin d.path d.name)).all env.fileExists
            && (md.output_files.map (fun d => pjoin d.path d.name)).all env.fileExists) := by
        simp [filePasses, hv]
      rw [hin]
      cases hd with
      | inl hdin =>
        have h1 : (md.input_files.map (fun x => pjoin x.path x.name)).all
            env.fileExists = false :=
          all_eq_false_of_mem _ _ _
            (List.mem_map_of_mem (fun x => pjoin x.path x.name) hdin) hmiss
        rw [h1, Bool.false_and]
      | inr hdout =>
        have h2 : (md.output_files.map (fun x => pjoin x.path x.name)).all
            env.fileExists = false :=
          all_eq_false_of_mem _ _ _
            (List.mem_map_of_mem (fun x => pjoin x.path x.name) hdout) hmiss
        rw [h2, Bool.and_false]
    rw [all_eq_false_of_mem _ _ f hf hfp]

/-- The decoded metadata used by the C4 environments: one declared input
file `data/f.csv` and no output files. -/
def c4MetadataKvs : List (String × Yaml) :=
  [("title", .str "T"), ("description", .str "D"),
   ("author", .list [.str "A"]),
   ("virtual_ecosystem_module", .list [.str "core"]),
   ("status", .str "final"), ("package_dependencies", .list []),
   ("usage_notes", .str "U"),
   ("input_files", .list [.map [("name", .str "f.csv"), ("path", .str "data"),
     ("description", .str "d")]]),
   ("output_files", .null)]

/-- A world where the declared input exists under the repository root
`/repo` but not relative to the working directory: `/repo/data/f.csv` is on
disk, `data/f.csv` is not. -/
def envC4 : Env where
  dirAt := fun p =>
    if p == "/repo/scripts" then .present [⟨"s.py", true⟩] else .missing
  fileLines := fun _ => []
  pyDocstring := fun _ => some "metadata"
  yamlLoad := fun _ => .ok (.map c4MetadataKvs)
  fileExists := fun p => p == "/repo/data/f.csv" || p == "/repo/scripts/s.py"
  urlValid := fun _ => true
  subdirs := fun _ => []
  cwd := "/repo"

/-- C4 counterexample: although `repository_root / descriptor.path /
descriptor.name` exists on disk, the check logs the input as not found and
fails the directory, because the code tests `descriptor.path /
descriptor.name` without the repository_root prefix. -/
theorem check_script_directory_location_not_rooted :
    envC4.fileExists (pjoin (pjoin "/repo" "data") "f.csv") = true
    ∧ (check_script_directory envC4 "/repo/scripts" true "/repo"
        defaultIgnoreFiles).result = some false
    ∧ (⟨.error, "     X Input file not found: data/f.csv"⟩ : LogLine)
      ∈ (check_script_directory envC4 "/repo/scripts" true "/repo"
        defaultIgnoreFiles).log := by
  refine ⟨by decide, by decide, by decide⟩

/-- The ScriptMetadata loaded from c4MetadataKvs. -/
def mdC4 : ScriptMetadata :=
  ⟨"T", "D", ["A"], ["core"], "final", [], "U", [⟨"f.csv", "data", "d"⟩], []⟩

theorem check_script_directory_location_checks_witness :
    (∀ d ∈ mdC4.input_files,
      locLine envC4 "Input" (pjoin d.path d.name)
        ∈ (check_script_directory envC4 "/repo/scripts" true "/repo"
          defaultIgnoreFiles).log)
    ∧ (∀ d ∈ mdC4.output_files,
      locLine envC4 "Output" (pjoin d.path d.name)
        ∈ (check_script_directory envC4 "/repo/scripts" true "/repo"
          defaultIgnoreFiles).log)
    ∧ ((∃ d, (d ∈ mdC4.input_files ∨ d ∈ mdC4.output_files)
          ∧ envC4.fileExists (pjoin d.path d.name) = false) →
      (check_script_directory envC4 "/repo/scripts" true "/repo"
        defaultIgnoreFiles).result = some false) :=
  check_script_directory_location_checks envC4 "/repo/scripts" "/repo"
    defaultIgnoreFiles [⟨"s.py", true⟩] ⟨"s.py", true⟩ mdC4
    rfl (by decide) (by decide) rfl

/-- C9: files whose names start with a dot are invisible to both directory
checkers: prepending a hidden entry to a directory listing changes neither
the script-directory result and log (it is never counted nor validated) nor
the data-directory result and log (it is never compared to the manifest). -/
theorem hidden_files_excluded (env : Env) (dirPath repository_root : String)
    (check_file_locations : Bool) (ignore_files : List String)
    (h : DirEntry) (entries : List DirEntry)
    (hh : pyStartsWith h.name "." = true) :
    check_script_directory_entries env dirPath check_file_locations
        (h :: entries) ignore_files
      = check_script_directory_entries env dirPath check_file_locations
        entries ignore_files
    ∧ check_data_directory_entries env dirPath repository_root (h :: entries)
      = check_data_directory_entries env dirPath repository_root entries := by
  have ha : actualFilesOf (h :: entries) = actualFilesOf entries := by
    simp [actualFilesOf, hh]
  constructor
  · simp only [check_script_directory_entries, scriptFilesOf, ha]
  · simp only [check_data_directory_entries, dataActualFiles,
      comparedDiskFiles, onlyInManifest, onlyInDirectory, ha]

/-- A two-entry world for the hidden-file witness. -/
def envC9 : Env where
  dirAt := fun _ => .present [⟨"a.txt", true⟩]
  fileLines := fun _ => []
  pyDocstring := fun _ => none
  yamlLoad := fun _ => .ok .null
  fileExists := fun _ => true
  urlValid := fun _ => true
  subdirs := fun _ => []
  cwd := "/repo"

theorem hidden_files_excluded_witness :
    check_script_directory_entries envC9 "/repo/d" true
        (⟨".hidden.py", true⟩ :: [⟨"a.txt", true⟩]) defaultIgnoreFiles
      = check_script_directory_entries envC9 "/repo/d" true
        [⟨"a.txt", true⟩] defaultIgnoreFiles
    ∧ check_data_directory_entries envC9 "/repo/d" "/repo"
        (⟨".hidden.py", true⟩ :: [⟨"a.txt", true⟩])
      = check_data_directory_entries envC9 "/repo/d" "/repo"
        [⟨"a.txt", true⟩] :=
  hidden_files_excluded envC9 "/repo/d" "/repo" true defaultIgnoreFiles
    ⟨".hidden.py", true⟩ [⟨"a.txt", true⟩] (by decide)

theorem sameNameSet_false_of_extra (a b : List String) (n : String)
    (hn : n ∈ a) (hnb : b.contains n = false) : sameNameSet a b = false := by
  have h1 : a.all (fun x => b.contains x) = false :=
    all_eq_false_of_mem _ _ n hn hnb
  simp only [sameNameSet]
  rw [h1, Bool.false_and]

/-- C6: when the schema-valid manifest name set and the on-disk name set
differ in both directions, the check reports the names only in the manifest
and, separately, the names only in the directory, and returns false. -/
theorem check_data_directory_two_way_diff (env : Env)
    (directory repository_root : String) (entries : List DirEntry)
    (y : Yaml) (m : Manifest)
    (hdir : env.dirAt (resolvePath directory repository_root) = .present entries)
    (hman : (dataActualFiles entries).contains "MANIFEST.yaml" = true)
    (hparse : env.yamlLoad (String.join (env.fileLines
      (pjoin (resolvePath directory repository_root) "MANIFEST.yaml"))) = .ok y)
    (hload : loadManifestSchema env.urlValid y = some m)
    (hM : onlyInManifest m entries ≠ [])
    (hD : onlyInDirectory m entries ≠ []) :
    (check_data_directory env directory repository_root).1 = false
    ∧ (⟨.error, "   Only in manifest: "
        ++ String.intercalate ", " (onlyInManifest m entries)⟩ : LogLine)
      ∈ (check_data_directory env directory repository_root).2
    ∧ (⟨.error, "   Only in directory: "
        ++ String.intercalate ", " (onlyInDirectory m entries)⟩ : LogLine)
      ∈ (check_data_directory env directory repository_root).2 := by
  have hfilesOk : sameNameSet (manifestNames m) (comparedDiskFiles entries)
      = false := by
    obtain ⟨n, hn⟩ := List.exists_mem_of_ne_nil _ hM
    obtain ⟨hnM, hnb⟩ := List.mem_filter.mp hn
    exact sameNameSet_false_of_extra _ _ n hnM (by simpa using hnb)
  have hMe : (onlyInManifest m entries).isEmpty = false := by
    cases hcase : onlyInManifest m entries with
    | nil => exact absurd hcase hM
    | cons a t => rfl
  have hDe : (onlyInDirectory m entries).isEmpty = false := by
    cases hcase : onlyInDirectory m entries with
    | nil => exact absurd hcase hD
    | cons a t => rfl
  have hmem : "MANIFEST.yaml" ∈ dataActualFiles entries := by simpa using hman
  cases hdirOk : pjoin repository_root m.directory
      == resolvePath directory repository_root <;>
    simp [check_data_directory, hdir, check_data_directory_entries, hman,
      hmem, hparse, hload, hfilesOk, hMe, hDe, hdirOk]

/-- A world for the two-way-difference witness: the manifest declares
{a, b, c} while the directory holds {a, b, d}. -/
def envC6 : Env where
  dirAt := fun _ =>
    .present [⟨"a", true⟩, ⟨"b", true⟩, ⟨"d", true⟩, ⟨"MANIFEST.yaml", true⟩]
  fileLines := fun _ => []
  pyDocstring := fun _ => none
  yamlLoad := fun _ => .ok (.map
    [("directory", .str "data/x"),
     ("files", .list
       [.map [("name", .str "a"), ("script", .str "gen.py")],
        .map [("name", .str "b"), ("script", .str "gen.py")],
        .map [("name", .str "c"), ("script", .str "gen.py")]])])
  fileExists := fun _ => true
  urlValid := fun _ => true
  subdirs := fun _ => []
  cwd := "/repo"

/-- The manifest loaded by envC6. -/
def manifestC6 : Manifest :=
  ⟨"data/x", [⟨"a", none, some "gen.py", none⟩, ⟨"b", none, some "gen.py", none⟩,
    ⟨"c", none, some "gen.py", none⟩]⟩

theorem check_data_directory_two_way_diff_witness :
    (check_data_directory envC6 "/repo/data/x" "/repo").1 = false
    ∧ (⟨.error, "   Only in manifest: " ++ String.intercalate ", "
        (onlyInManifest manifestC6
          [⟨"a", true⟩, ⟨"b", true⟩, ⟨"d", true⟩, ⟨"MANIFEST.yaml", true⟩])⟩
        : LogLine)
      ∈ (check_data_directory envC6 "/repo/data/x" "/repo").2
    ∧ (⟨.error, "   Only in directory: " ++ String.intercalate ", "
        (onlyInDirectory manifestC6
          [⟨"a", true⟩, ⟨"b", true⟩, ⟨"d", true⟩, ⟨"MANIFEST.yaml", true⟩])⟩
        : LogLine)
      ∈ (check_data_directory envC6 "/repo/data/x" "/repo").2 :=
  check_data_directory_two_way_diff envC6 "/repo/data/x" "/repo"
    [⟨"a", true⟩, ⟨"b", true⟩, ⟨"d", true⟩, ⟨"MANIFEST.yaml", true⟩]
    (.map [("directory", .str "data/x"),
     ("files", .list
       [.map [("name", .str "a"), ("script", .str "gen.py")],
        .map [("name", .str "b"), ("script", .str "gen.py")],
        .map [("name", .str "c"), ("script", .str "gen.py")]])])
    manifestC6 rfl (by decide) rfl rfl (by decide) (by decide)

/-- C10: the manifest file name is removed from the on-disk set before the
comparison, so the compared set never holds MANIFEST.yaml and a manifest
need not declare itself; a manifest that does list MANIFEST.yaml has it
reported among the names only in the manifest and fails validation. -/
theorem manifest_not_self_listed (env : Env)
    (directory repository_root : String) (entries : List DirEntry)
    (y : Yaml) (m : Manifest)
    (hdir : env.dirAt (resolvePath directory repository_root) = .present entries)
    (hman : (dataActualFiles entries).contains "MANIFEST.yaml" = true)
    (hparse : env.yamlLoad (String.join (env.fileLines
      (pjoin (resolvePath directory repository_root) "MANIFEST.yaml"))) = .ok y)
    (hload : loadManifestSchema env.urlValid y = some m) :
    ("MANIFEST.yaml" ∉ comparedDiskFiles entries)
    ∧ ("MANIFEST.yaml" ∈ manifestNames m →
        "MANIFEST.yaml" ∈ onlyInManifest m entries
        ∧ (check_data_directory env directory repository_root).1 = false) := by
  have hnotin : "MANIFEST.yaml" ∉ comparedDiskFiles entries := by
    intro hmemd
    obtain ⟨_, hne⟩ := List.mem_filter.mp hmemd
    simp at hne
  refine ⟨hnotin, fun hmemM => ⟨?_, ?_⟩⟩
  · exact List.mem_filter.mpr ⟨hmemM, by simpa using hnotin⟩
  · have hc : (comparedDiskFiles entries).contains "MANIFEST.yaml" = false := by
      simpa using hnotin
    have hfilesOk : sameNameSet (manifestNames m) (comparedDiskFiles entries)
        = false := sameNameSet_false_of_extra _ _ _ hmemM hc
    have hmem : "MANIFEST.yaml" ∈ dataActualFiles entries := by simpa using hman
    cases hdirOk : pjoin repository_root m.directory
        == resolvePath directory repository_root <;>
      simp [check_data_directory, hdir, check_data_directory_entries, hman,
        hmem, hparse, hload, hfilesOk, hdirOk]

/-- A world whose manifest wrongly lists MANIFEST.yaml among its files. -/
def envC10 : Env where
  dirAt := fun _ => .present [⟨"a", true⟩, ⟨"MANIFEST.yaml", true⟩]
  fileLines := fun _ => []
  pyDocstring := fun _ => none
  yamlLoad := fun _ => .ok (.map
    [("directory", .str "data/y"),
     ("files", .list
       [.map [("name", .str "a"), ("script", .str "gen.py")],
        .map [("name", .str "MANIFEST.yaml"), ("script", .str "gen.py")]])])
  fileExists := fun _ => true
  urlValid := fun _ => true
  subdirs := fun _ => []
  cwd := "/repo"

/-- The manifest loaded by envC10. -/
def manifestC10 : Manifest :=
  ⟨"data/y", [⟨"a", none, some "gen.py", none⟩,
    ⟨"MANIFEST.yaml", none, some "gen.py", none⟩]⟩

theorem manifest_not_self_listed_witness :
    ("MANIFEST.yaml" ∉ comparedDiskFiles [⟨"a", true⟩, ⟨"MANIFEST.yaml", true⟩])
    ∧ ("MANIFEST.yaml" ∈ manifestNames manifestC10 →
        "MANIFEST.yaml" ∈ onlyInManifest manifestC10
          [⟨"a", true⟩, ⟨"MANIFEST.yaml", true⟩]
        ∧ (check_data_directory envC10 "/repo/data/y" "/repo").1 = false) :=
  manifest_not_self_listed envC10 "/repo/data/y" "/repo"
    [⟨"a", true⟩, ⟨"MANIFEST.yaml", true⟩]
    (.map [("directory", .str "data/y"),
     ("files", .list
       [.map [("name", .str "a"), ("script", .str "gen.py")],
        .map [("name", .str "MANIFEST.yaml"), ("script", .str "gen.py")]])])
    manifestC10 rfl (by decide) rfl rfl

/-! ## Claims about the schema layer -/

/-- A manifest file entry as decoded from YAML, built from a name and the
optional url, script and md5 fields, each present exactly when supplied. -/
def mkManifestEntryYaml (name : String) (url : Option String)
    (script : Option String) (md5 : Option String) : Yaml :=
  .map ([("name", Yaml.str name)]
    ++ (match url with | some u => [("url", Yaml.str u)] | none => [])
    ++ (match script with | some s => [("script", Yaml.str s)] | none => [])
    ++ (match md5 with | some c => [("md5", Yaml.str c)] | none => []))

/-- C2: a manifest entry supplying both url and script fails validation, one
supplying neither fails, and one supplying exactly one of them (with a valid
name and otherwise well-typed fields) passes. -/
theorem manifest_entry_provenance_xor (urlValid : String → Bool)
    (name u s : String) (md5 : Option String) (hu : urlValid u = true) :
    loadManifestFile urlValid (mkManifestEntryYaml name (some u) (some s) md5)
      = none
    ∧ loadManifestFile urlValid (mkManifestEntryYaml name none none md5)
      = none
    ∧ loadManifestFile urlValid (mkManifestEntryYaml name (some u) none md5)
      = some ⟨name, some u, none, md5⟩
    ∧ loadManifestFile urlValid (mkManifestEntryYaml name none (some s) md5)
      = some ⟨name, none, some s, md5⟩ := by
  cases md5 <;>
    simp [mkManifestEntryYaml, loadManifestFile, optUrlField, optStrField,
      lookupYaml, parseStr, mfKeys, hu]

theorem manifest_entry_provenance_xor_witness :
    loadManifestFile (fun _ => true)
      (mkManifestEntryYaml "f.csv" (some "https://x") (some "gen.py") none)
      = none
    ∧ loadManifestFile (fun _ => true)
      (mkManifestEntryYaml "f.csv" none none none) = none
    ∧ loadManifestFile (fun _ => true)
      (mkManifestEntryYaml "f.csv" (some "https://x") none none)
      = some ⟨"f.csv", some "https://x", none, none⟩
    ∧ loadManifestFile (fun _ => true)
      (mkManifestEntryYaml "f.csv" none (some "gen.py") none)
      = some ⟨"f.csv", none, some "gen.py", none⟩ :=
  manifest_entry_provenance_xor (fun _ => true) "f.csv" "https://x" "gen.py"
    none rfl

theorem lookupYaml_normalize (kvs : List (String × Yaml)) (key : String) :
    lookupYaml (kvs.map normalizePair) key
      = (lookupYaml kvs key).map (normalizeVal key) := by
  induction kvs with
  | nil => rfl
  | cons kv rest ih =>
    obtain ⟨k, v⟩ := kv
    by_cases hk : (k == key) = true
    · have hkk : k = key := by simpa using hk
      subst hkk
      simp [normalizePair, lookupYaml, hk]
    · simp [normalizePair, lookupYaml, hk, ih]

theorem loadScriptMetadata_ok_fileLists (kvs : List (String × Yaml))
    (md : ScriptMetadata) (h : loadScriptMetadata (.map kvs) = some md) :
    optFileList kvs "input_files" = some md.input_files
    ∧ optFileList kvs "output_files" = some md.output_files := by
  simp only [loadScriptMetadata] at h
  split at h
  · split at h
    · injection h with h'
      subst h'
      constructor <;> assumption
    · simp at h
  · simp at h

/-- C3: a decoded front-matter mapping whose input_files or output_files
field is present but null is normalized to an empty sequence before the
schema load, so a successfully loaded ScriptMetadata carries the empty list
for that field. -/
theorem script_metadata_null_lists_normalized (kvs : List (String × Yaml))
    (key : String) (hkey : key = "input_files" ∨ key = "output_files")
    (hnull : lookupYaml kvs key = some .null) :
    lookupYaml (kvs.map normalizePair) key = some (.list [])
    ∧ ∀ md, loadNormalizedMetadata (.map kvs) = some md →
        (key = "input_files" → md.input_files = [])
        ∧ (key = "output_files" → md.output_files = []) := by
  rcases hkey with hk | hk <;> subst hk
  · have hlook : lookupYaml (kvs.map normalizePair) "input_files"
        = some (.list []) := by
      rw [lookupYaml_normalize, hnull]
      rfl
    refine ⟨hlook, fun md hmd =>
      ⟨fun _ => ?_, fun hcontra => absurd hcontra (by decide)⟩⟩
    have h1 := (loadScriptMetadata_ok_fileLists (kvs.map normalizePair) md
      hmd).1
    have h2 : optFileList (kvs.map normalizePair) "input_files" = some [] := by
      unfold optFileList
      rw [hlook]
      rfl
    rw [h1] at h2
    exact Option.some.inj h2
  · have hlook : lookupYaml (kvs.map normalizePair) "output_files"
        = some (.list []) := by
      rw [lookupYaml_normalize, hnull]
      rfl
    refine ⟨hlook, fun md hmd =>
      ⟨fun hcontra => absurd hcontra (by decide), fun _ => ?_⟩⟩
    have h1 := (loadScriptMetadata_ok_fileLists (kvs.map normalizePair) md
      hmd).2
    have h2 : optFileList (kvs.map normalizePair) "output_files" = some [] := by
      unfold optFileList
      rw [hlook]
      rfl
    rw [h1] at h2
    exact Option.some.inj h2

/-- A complete metadata mapping with a null input_files field, for the
normalization witness. -/
def c3Kvs : List (String × Yaml) :=
  [("title", .str "T"), ("description", .str "D"),
   ("author", .list [.str "A"]),
   ("virtual_ecosystem_module", .list [.str "core"]),
   ("status", .str "wip"), ("package_dependencies", .list [.str "p"]),
   ("usage_notes", .str "U"), ("input_files", .null),
   ("output_files", .list [])]

theorem script_metadata_null_lists_normalized_witness :
    lookupYaml (c3Kvs.map normalizePair) "input_files" = some (.list [])
    ∧ ∀ md, loadNormalizedMetadata (.map c3Kvs) = some md →
        ("input_files" = "input_files" → md.input_files = [])
        ∧ ("input_files" = "output_files" → md.output_files = []) :=
  script_metadata_null_lists_normalized c3Kvs "input_files" (Or.inl rfl) rfl

/-- C5 (amended): a decoded mapping holding any key outside the declared
ScriptMetadata fields fails the schema load (marshmallow raises on unknown
fields by default), whatever the other bindings are. -/
theorem script_metadata_unknown_field_rejected (kvs : List (String × Yaml))
    (k : String) (v : Yaml) (hk : smKeys.contains k = false)
    (hmem : (k, v) ∈ kvs) :
    loadScriptMetadata (.map kvs) = none := by
  have hall : kvs.all (fun kv => smKeys.contains kv.1) = false :=
    all_eq_false_of_mem _ _ (k, v) hmem (by simpa using hk)
  simp only [loadScriptMetadata]
  rw [hall]
  rfl

/-- A complete, valid metadata mapping with every declared field present. -/
def c5BaseKvs : List (String × Yaml) :=
  [("title", .str "T"), ("description", .str "D"),
   ("author", .list [.str "A"]),
   ("virtual_ecosystem_module", .list [.str "core"]),
   ("status", .str "final"), ("package_dependencies", .list []),
   ("usage_notes", .str "U"), ("input_files", .list []),
   ("output_files", .list [])]

/-- C5 counterexample: the very mapping that loads cleanly is rejected once
one extra, unknown field is added, so unknown fields are not ignored. -/
theorem script_metadata_unknown_field_rejected_cex :
    loadScriptMetadata (.map (c5BaseKvs ++ [("extra_field", .str "x")])) = none
    ∧ loadScriptMetadata (.map c5BaseKvs)
      = some ⟨"T", "D", ["A"], ["core"], "final", [], "U", [], []⟩ :=
  ⟨rfl, rfl⟩

/-- The mapping used by the unknown-field witness. -/
def c5WitnessKvs : List (String × Yaml) :=
  [("title", .str "T"), ("extra_field", .str "x")]

theorem script_metadata_unknown_field_rejected_witness :
    loadScriptMetadata (.map c5WitnessKvs) = none :=
  script_metadata_unknown_field_rejected c5WitnessKvs "extra_field"
    (.str "x") rfl (List.mem_cons_of_mem _ (List.mem_cons_self _ _))

/-- C7: a Python script without a module docstring, an R script with fewer
than two comment-marker lines, and a markdown notebook whose delimiter-line
count is not two all raise the format-specific error instead of producing
any (empty) metadata mapping. -/
theorem missing_metadata_block_raises (yamlLoad : String → Except String Yaml)
    (contentR contentMd : List String)
    (hr : (rDocumentMarkers contentR).length < 2)
    (hmd : (mdDocumentMarkers contentMd).length ≠ 2) :
    read_py_script_metadata none yamlLoad
      = .error "Missing docstring in python script"
    ∧ read_r_script_metadata contentR yamlLoad
      = .error "YAML block not contained within document markers."
    ∧ read_markdown_notebook_metadata contentMd yamlLoad
      = .error ("Found " ++ toString (mdDocumentMarkers contentMd).length
        ++ " not 2 YAML metadata markers.") := by
  refine ⟨rfl, ?_, ?_⟩
  · cases hms : rDocumentMarkers contentR with
    | nil => simp [read_r_script_metadata, hms]
    | cons m0 t =>
      cases t with
      | nil => simp [read_r_script_metadata, hms]
      | cons m1 t2 =>
        rw [hms] at hr
        simp at hr
        omega
  · cases hms : mdDocumentMarkers contentMd with
    | nil => simp [read_markdown_notebook_metadata, hms]
    | cons m0 t =>
      cases t with
      | nil => simp [read_markdown_notebook_metadata, hms]
      | cons m1 t2 =>
        cases t2 with
        | nil =>
          rw [hms] at hmd
          simp at hmd
        | cons m2 t3 => simp [read_markdown_notebook_metadata, hms]

theorem missing_metadata_block_raises_witness :
    read_py_script_metadata none (fun _ => .ok .null)
      = .error "Missing docstring in python script"
    ∧ read_r_script_metadata ["x <- 1\n"] (fun _ => .ok .null)
      = .error "YAML block not contained within document markers."
    ∧ read_markdown_notebook_metadata ["just text\n"] (fun _ => .ok .null)
      = .error ("Found " ++ toString (mdDocumentMarkers ["just text\n"]).length
        ++ " not 2 YAML metadata markers.") :=
  missing_metadata_block_raises (fun _ => .ok .null) ["x <- 1\n"]
    ["just text\n"] (by decide) (by decide)

